import Mathlib

/-!
# RSVP client gateway: shallow embedding and verification

Shallow embedding of the RSVP submission/list logic of the wedding-site
repository (`src/src/App.jsx`, with a second revision of the same component
concatenated after it, plus the Apps-Script backend).  The embedded
functions mirror the JavaScript source:

* JS primitive values are modelled by `JPrim` (undefined, null, booleans,
  numbers as rationals plus a separate `nan`, strings).  Rows (JSON objects
  with primitive values) are association lists `Row`.
* JS truthiness, `a || b`, property lookup and the `Number(...)` coercion
  are embedded directly (`jsTruthy`, `jsOr`, `jget`, `jsNumber`).  The
  string-to-number parse models the base-10 decimal fragment of JS
  `ToNumber` (optional sign, integer/fraction digits, surrounding ASCII
  whitespace); hexadecimal, exponent and `Infinity` forms are outside the
  value space exercised here and are mapped to `nan`.
* `normalizeRow`, `refreshOutput` embed the normalization + filter of
  `refreshRSVPs`; `rowsToCSV` and friends embed the CSV export helper;
  `validateRSVP` embeds the validation predicate; the request-building
  preludes of `fetchRSVPsFromSheets` and the two `addRSVPToSheets`
  revisions are embedded as pure functions from deployment configuration
  to `Except error request` (an `.error` result means the function throws
  before any network call; an `.ok` result carries the request it issues).
-/

/-- A JavaScript primitive value, as appearing in the JSON rows the remote
store returns.  JS numbers are modelled as rationals, with `nan` a separate
constructor (the claims never exercise infinities or float rounding). -/
inductive JPrim where
  | undefined
  | null
  | bool (b : Bool)
  | num (q : ℚ)
  | nan
  | str (s : String)
deriving Repr, DecidableEq

/-- A JSON object with primitive values: an association list in insertion
order, keys unique (JS object semantics). -/
abbrev Row := List (String × JPrim)

/-- JS truthiness of a primitive value. -/
def jsTruthy : JPrim → Bool
  | .undefined => false
  | .null => false
  | .bool b => b
  | .num q => q ≠ 0
  | .nan => false
  | .str s => s ≠ ""

/-- JS `a || b` on primitive values. -/
def jsOr (a b : JPrim) : JPrim := if jsTruthy a then a else b

/-- JS property read `r.k` on an object: the bound value, or `undefined`
when the key is absent. -/
def jget (r : Row) (k : String) : JPrim := (r.lookup k).getD .undefined

/-- Accumulate a digit string into a natural number (base 10). -/
def digitsToNat (cs : List Char) : ℕ :=
  cs.foldl (fun a c => a * 10 + (c.toNat - 48)) 0

/-- The base-10 decimal fragment of the JS string-to-number conversion:
optional sign, then `digits`, `digits.digits`, `.digits` or `digits.`;
`none` models NaN.  (The whole string is assumed already trimmed and
nonempty; see `strToNum`.) -/
def strToNumCore (cs : List Char) : Option ℚ :=
  let (neg, body) : Bool × List Char :=
    match cs with
    | '-' :: r => (true, r)
    | '+' :: r => (false, r)
    | _ => (false, cs)
  let intPart := body.takeWhile Char.isDigit
  let rest := body.dropWhile Char.isDigit
  let mag : Option ℚ :=
    match rest with
    | [] => if intPart.isEmpty then none else some (digitsToNat intPart)
    | '.' :: frac =>
        if frac.all Char.isDigit ∧ ¬(intPart.isEmpty ∧ frac.isEmpty) then
          some ((digitsToNat intPart : ℚ) +
            (digitsToNat frac : ℚ) / (10 : ℚ) ^ frac.length)
        else none
    | _ => none
  mag.map (fun q => if neg then -q else q)

/-- An ASCII whitespace character (the kinds JS `ToNumber` strips that
occur in this value space). -/
def isWS (c : Char) : Bool := c = ' ' ∨ c = '\t' ∨ c = '\n' ∨ c = '\r'

/-- Strip leading and trailing whitespace. -/
def trimChars (cs : List Char) : List Char :=
  ((cs.dropWhile isWS).reverse.dropWhile isWS).reverse

/-- JS `Number(s)` for a string `s`: whitespace-trimmed; empty means `0`;
otherwise the decimal parse, `NaN` on failure. -/
def strToNum (s : String) : Option ℚ :=
  let t := trimChars s.data
  if t = [] then some 0 else strToNumCore t

/-- JS `Number(v)` on a primitive value (`none`-free: NaN is `JPrim.nan`). -/
def jsNumber : JPrim → JPrim
  | .undefined => .nan
  | .null => .num 0
  | .bool b => .num (if b then 1 else 0)
  | .num q => .num q
  | .nan => .nan
  | .str s => match strToNum s with
      | some q => .num q
      | none => .nan

/-- The per-row normalization of `refreshRSVPs` (`App.jsx`):

```js
{ name: r.name || r.Name || r.full_name || "",
  email: r.email || r.Email || "",
  attending: r.attending || r.Attending || "",
  guests: Number(r.guests || r.Guests || 0),
  message: r.message || r.Message || "",
  timestamp: r.timestamp || r.Timestamp || r.time || r.Time || "" }
``` -/
def normalizeRow (r : Row) : Row :=
  [ ("name", jsOr (jget r "name") (jsOr (jget r "Name")
      (jsOr (jget r "full_name") (.str "")))),
    ("email", jsOr (jget r "email") (jsOr (jget r "Email") (.str ""))),
    ("attending", jsOr (jget r "attending") (jsOr (jget r "Attending") (.str ""))),
    ("guests", jsNumber (jsOr (jget r "guests") (jsOr (jget r "Guests") (.num 0)))),
    ("message", jsOr (jget r "message") (jsOr (jget r "Message") (.str ""))),
    ("timestamp", jsOr (jget r "timestamp") (jsOr (jget r "Timestamp")
      (jsOr (jget r "time") (jsOr (jget r "Time") (.str ""))))) ]

/-- The JSON body a `list` call may return, as discriminated by
`fetchRSVPsFromSheets` (`Array.isArray(data) ? data : data?.rows || []`).
`objBadRows` stands for an object whose `rows` field is truthy but not an
array: there `rows.map` throws, the `catch` in `refreshRSVPs` fires and the
displayed list is `[]`, which is the value this embedding returns for it. -/
inductive ListData where
  | jarr (rows : List Row)
  | objRows (rows : List Row)
  | objNoRows
  | objBadRows
  | jother
deriving Repr, DecidableEq

/-- The row list `fetchRSVPsFromSheets` hands to `refreshRSVPs`. -/
def extractRows : ListData → List Row
  | .jarr rows => rows
  | .objRows rows => rows
  | _ => []

/-- The full list pipeline of `refreshRSVPs`: shape dispatch, per-row
normalization, then `norm.filter((x) => x.name || x.email)`. -/
def refreshOutput (d : ListData) : List Row :=
  ((extractRows d).map normalizeRow).filter
    (fun x => jsTruthy (jget x "name") || jsTruthy (jget x "email"))

/-- `isSheetsConfigured()`: the env var is a string starting with `"http"`.
The configuration is `none` when `VITE_SHEETS_WEB_APP_URL` is undefined. -/
def isSheetsConfigured (cfg : Option String) : Bool :=
  match cfg with
  | some s => "http".data.isPrefixOf s.data
  | none => false

/-- `validateRSVP`'s argument: a JS value that is an object, `null`,
`undefined` or some other primitive. -/
inductive JEntry where
  | null
  | undefined
  | prim (v : JPrim)
  | obj (r : Row)
deriving Repr, DecidableEq

/-- `validateRSVP(entry) = Boolean(entry && entry.name && entry.email)`.
`null`/`undefined` are falsy; on a non-object primitive, `.name` is
`undefined`, so the result is `false` whenever the primitive is truthy and
short-circuits to `false` otherwise. -/
def validateRSVP : JEntry → Bool
  | .obj r => jsTruthy (jget r "name") && jsTruthy (jget r "email")
  | .prim _ => false
  | _ => false

/-! ## Request-building preludes (configuration checks and network calls)

Each async helper is embedded as a pure function from the deployment
configuration (and, where the source calls `new Date()`, an explicit clock
argument) to `Except String request`: an `.error e` result means the
function throws `Error(e)` before touching the network, an `.ok` result
carries a description of the single request the function then issues. -/

/-- JS `String(v)` on a primitive value (used by `URLSearchParams` when it
stringifies values).  Non-integer rationals are rendered with Lean's
`num/den` notation, a modelling choice: no claim depends on the digits of a
non-integer, and the rendering contains no comma, quote or newline. -/
def jsStringOf : JPrim → String
  | .undefined => "undefined"
  | .null => "null"
  | .bool b => if b then "true" else "false"
  | .num q => if q.den = 1 then toString q.num else toString q
  | .nan => "NaN"
  | .str s => s

/-- The query string parameters built by the GET revision of
`addRSVPToSheets` (all values stringified by `URLSearchParams`). -/
structure AddParams where
  action : String
  name : String
  email : String
  attending : String
  guests : String
  message : String
  timestamp : String
deriving Repr, DecidableEq

/-- Prelude of `fetchRSVPsFromSheets` (identical in both revisions):

```js
if (!isSheetsConfigured()) throw new Error("SHEETS_URL_NOT_CONFIGURED");
const url = SHEETS_WEB_APP_URL.includes("?") ? `...&action=list` : `...?action=list`;
```
returns the GET URL it fetches, or the thrown error message. -/
def fetchRSVPsRequest (cfg : Option String) : Except String String :=
  if isSheetsConfigured cfg then
    let base := cfg.getD ""
    .ok (if base.data.contains '?' then base ++ "&action=list"
      else base ++ "?action=list")
  else .error "SHEETS_URL_NOT_CONFIGURED"

/-- Prelude of the GET revision of `addRSVPToSheets` (`App.jsx` lines
78–103): the configuration check is `if (!SHEETS_WEB_APP_URL) throw ...` —
plain truthiness, not `isSheetsConfigured()` — and the parameters always
carry `timestamp: new Date().toISOString()` (the `now` argument here). -/
def addRSVPGetRequest (cfg : Option String) (now : String) (entry : Row) :
    Except String AddParams :=
  if (match cfg with | some s => s ≠ "" | none => false : Bool) then
    .ok { action := "add",
          name := jsStringOf (jsOr (jget entry "name") (.str "")),
          email := jsStringOf (jsOr (jget entry "email") (.str "")),
          attending := jsStringOf (jsOr (jget entry "attending") (.str "")),
          guests := if jsTruthy (jget entry "guests") then
              jsStringOf (jget entry "guests") else "0",
          message := jsStringOf (jsOr (jget entry "message") (.str "")),
          timestamp := now }
  else .error "SHEETS_URL_NOT_CONFIGURED"

/-- Prelude of the POST revision of `addRSVPToSheets` (second revision in
`App.jsx`): checks `isSheetsConfigured()` and posts the JSON body
`{action:"add", entry}` with the entry forwarded untouched. -/
def addRSVPPostRequest (cfg : Option String) (entry : Row) :
    Except String (String × Row) :=
  if isSheetsConfigured cfg then .ok ("add", entry)
  else .error "SHEETS_URL_NOT_CONFIGURED"

/-! ## CSV export (`rowsToCSV`) and a conformant CSV parser -/

/-- The cell stringification of `rowsToCSV`:
`const val = v == null ? "" : String(v)` (`== null` matches both `null`
and `undefined`). -/
def cellString : JPrim → String
  | .null => ""
  | .undefined => ""
  | v => jsStringOf v

/-- `/[",\n]/.test(val)`: does the string contain a comma, double quote or
newline? -/
def hasSpecial (s : String) : Bool :=
  s.data.any (fun c => c == ',' || c == '"' || c == '\n')

/-- `val.replace(/"/g, '""')`: double every double-quote. -/
def dqChars : List Char → List Char
  | [] => []
  | c :: r => if c = '"' then '"' :: '"' :: dqChars r else c :: dqChars r

/-- String version of `dqChars`. -/
def dqStr (s : String) : String := String.mk (dqChars s.data)

/-- One CSV cell as emitted by `rowsToCSV`:
`needsQuotes ? `"${escaped}"` : escaped`. -/
def csvCell (v : JPrim) : String :=
  let val := cellString v
  let escaped := dqStr val
  if hasSpecial val then "\"" ++ escaped ++ "\"" else escaped

/-- `[a, b, c].join(sep)` (JavaScript `Array.prototype.join`). -/
def joinWith (sep : String) : List String → String
  | [] => ""
  | [x] => x
  | x :: xs => x ++ sep ++ joinWith sep xs

/-- `processRow`: the values of a row, escaped and comma-joined. -/
def processRow (row : Row) : String :=
  joinWith "," (row.map (fun p => csvCell p.2))

/-- `rowsToCSV(rows)`: header line from the keys of the first row (raw,
unescaped), then one line per row, newline-joined. -/
def rowsToCSV (rows : List Row) : String :=
  let header := joinWith "," ((rows.head?.getD []).map Prod.fst)
  joinWith "\n" (header :: rows.map processRow)

/-- A conformant (RFC-4180-style, `\n` line endings) CSV reader, written
against the spec's words — this is the "conformant CSV parser" of the
round-trip property, not code of the repository.  One structural pass:
`inQ` says whether we are inside a quoted field, `fld` is the current
field, `rec` the fields of the current record.  A doubled quote inside a
quoted field reads as one literal quote; a quote opens a field only at the
field's start (elsewhere it is kept literally); per RFC 4180 the final
record may end with or without a line break, so input exhausted right
after a record separator yields no extra empty record. -/
def csvAux : List Char → Bool → List Char → List String → List (List String)
  | [], false, fld, rec =>
      if fld = [] ∧ rec = [] then [] else [rec ++ [String.mk fld]]
  | [], true, fld, rec => [rec ++ [String.mk fld]]
  | c :: r, true, fld, rec =>
      if c = '"' then
        match r with
        | c2 :: r2 =>
            if c2 = '"' then csvAux r2 true (fld ++ ['"']) rec
            else csvAux (c2 :: r2) false fld rec
        | [] => csvAux [] false fld rec
      else csvAux r true (fld ++ [c]) rec
  | c :: r, false, fld, rec =>
      if c = ',' then csvAux r false [] (rec ++ [String.mk fld])
      else if c = '\n' then (rec ++ [String.mk fld]) :: csvAux r false [] []
      else if c = '"' then
        if fld = [] then csvAux r true [] rec
        else csvAux r false (fld ++ ['"']) rec
      else csvAux r false (fld ++ [c]) rec

/-- Parse a CSV document into its records. -/
def parseCSV (s : String) : List (List String) := csvAux s.data false [] []

/-! ## Spec-side auxiliary definitions -/

/-- The first truthy value in a list, else the default — the meaning of a
JS `a || b || ... || d` chain, stated from the spec's "fallback chain". -/
def firstTruthy (d : JPrim) : List JPrim → JPrim
  | [] => d
  | v :: vs => if jsTruthy v then v else firstTruthy d vs

/-- Fallback-chain lookup over exact keys: first truthy field value along
`ks`, else the default. -/
def chainLookup (r : Row) (ks : List String) (d : JPrim) : JPrim :=
  firstTruthy d (ks.map (jget r))

/-- Is this JS value a string? -/
def isStr : JPrim → Bool
  | .str _ => true
  | _ => false

/-- View a flat string-valued row as a `Row` (all values string-typed). -/
def strRow (r : List (String × String)) : Row :=
  r.map (fun p => (p.1, .str p.2))

/-- The CSV line for a list of string cell values: each cell escaped as
`rowsToCSV` escapes it, comma-joined. -/
def lineOfVals (vs : List String) : String :=
  joinWith "," (vs.map (fun v => csvCell (.str v)))

/-- A CSV document from its lines' cell values. -/
def docOfLines (ls : List (List String)) : String :=
  joinWith "\n" (ls.map lineOfVals)

/-! ## Basic lemmas -/

/-- Rebuilding a string from its characters is the identity. -/
theorem mk_data_eq (s : String) : String.mk s.data = s := by
  cases s
  rfl

/-- Quote-doubling is the identity on quote-free character lists. -/
theorem dqChars_of_no_quote : ∀ cs : List Char, '"' ∉ cs → dqChars cs = cs := by
  intro cs
  induction cs with
  | nil => intro _; rfl
  | cons c r ih =>
      intro h
      have hc : c ≠ '"' := fun hc => h (hc ▸ List.mem_cons_self c r)
      have hr : '"' ∉ r := fun hm => h (List.mem_cons_of_mem c hm)
      simp [dqChars, hc, ih hr]

/-- A string without special characters has no quote among its characters. -/
theorem no_quote_of_not_hasSpecial (s : String) (h : hasSpecial s = false) :
    '"' ∉ s.data := by
  intro hm
  simp only [hasSpecial, List.any_eq_false] at h
  have := h _ hm
  simp at this

/-- `jsOr` returns its first argument exactly when that is truthy. -/
theorem jsOr_of_truthy {a : JPrim} (b : JPrim) (h : jsTruthy a = true) :
    jsOr a b = a := by
  simp [jsOr, h]

/-- `jsOr` falls through exactly when its first argument is falsy. -/
theorem jsOr_of_falsy {a : JPrim} (b : JPrim) (h : jsTruthy a = false) :
    jsOr a b = b := by
  simp [jsOr, h]

/-- Projecting the `name` field of a normalized row. -/
theorem jget_norm_name (r : Row) :
    jget (normalizeRow r) "name" =
      jsOr (jget r "name") (jsOr (jget r "Name")
        (jsOr (jget r "full_name") (.str ""))) := by
  simp [normalizeRow, jget, List.lookup]

/-- Projecting the `email` field of a normalized row. -/
theorem jget_norm_email (r : Row) :
    jget (normalizeRow r) "email" =
      jsOr (jget r "email") (jsOr (jget r "Email") (.str "")) := by
  simp [normalizeRow, jget, List.lookup]

/-- Projecting the `attending` field of a normalized row. -/
theorem jget_norm_attending (r : Row) :
    jget (normalizeRow r) "attending" =
      jsOr (jget r "attending") (jsOr (jget r "Attending") (.str "")) := by
  simp [normalizeRow, jget, List.lookup]

/-- Projecting the `guests` field of a normalized row. -/
theorem jget_norm_guests (r : Row) :
    jget (normalizeRow r) "guests" =
      jsNumber (jsOr (jget r "guests") (jsOr (jget r "Guests") (.num 0))) := by
  simp [normalizeRow, jget, List.lookup]

/-- Projecting the `message` field of a normalized row. -/
theorem jget_norm_message (r : Row) :
    jget (normalizeRow r) "message" =
      jsOr (jget r "message") (jsOr (jget r "Message") (.str "")) := by
  simp [normalizeRow, jget, List.lookup]

/-- Projecting the `timestamp` field of a normalized row. -/
theorem jget_norm_time (r : Row) :
    jget (normalizeRow r) "timestamp" =
      jsOr (jget r "timestamp") (jsOr (jget r "Timestamp")
        (jsOr (jget r "time") (jsOr (jget r "Time") (.str "")))) := by
  simp [normalizeRow, jget, List.lookup]

/-! ## C1 — guests coercion in the list normalization -/

/-- C1 counterexample: a row whose `guests` value is the unparseable
string `"abc"` normalizes to `guests = NaN`, not `0` as the claim states
(`Number("abc")` is `NaN` in JS). -/
theorem normalizeGuests_counterexample :
    jget (normalizeRow [("guests", JPrim.str "abc")]) "guests" = .nan ∧
      JPrim.nan ≠ .num 0 := ⟨by decide, by decide⟩

/-- C1 (amended): the `guests` coercion of `refreshRSVPs` defaults to `0`
when both `guests` keys are falsy/absent; a truthy string value is given a
best-effort base-10 numeric parse, yielding the parsed number on success
and `NaN` (not `0`) on failure. -/
theorem normalizeGuests_amended (r : Row) :
    (jsTruthy (jget r "guests") = false → jsTruthy (jget r "Guests") = false →
      jget (normalizeRow r) "guests" = .num 0)
    ∧ (∀ (s : String) (q : ℚ), jget r "guests" = .str s → s ≠ "" →
        strToNum s = some q → jget (normalizeRow r) "guests" = .num q)
    ∧ (∀ s : String, jget r "guests" = .str s → s ≠ "" →
        strToNum s = none → jget (normalizeRow r) "guests" = .nan) := by
  refine ⟨fun h1 h2 => ?_, fun s q hs hne hq => ?_, fun s hs hne hq => ?_⟩
  · rw [jget_norm_guests, jsOr_of_falsy _ h1, jsOr_of_falsy _ h2]
    rfl
  · rw [jget_norm_guests, hs, jsOr_of_truthy _ (by simp [jsTruthy, hne])]
    simp [jsNumber, hq]
  · rw [jget_norm_guests, hs, jsOr_of_truthy _ (by simp [jsTruthy, hne])]
    simp [jsNumber, hq]

/-- C1 witness: a parseable `guests` string `"7"` yields `guests = 7`. -/
theorem normalizeGuests_amended_witness :
    jget (normalizeRow [("guests", JPrim.str "7")]) "guests" = .num 7 :=
  (normalizeGuests_amended _).2.1 "7" 7 (by decide) (by decide) (by decide)

/-! ## C5 — CSV cell quoting -/

/-- C5: a cell whose stringification contains a comma, double quote or
newline is emitted wrapped in double quotes with internal quotes doubled;
one containing none of these is emitted verbatim (unquoted); `null` and
`undefined` cells are emitted as the empty string. -/
theorem csvCell_quoting (v : JPrim) :
    (hasSpecial (cellString v) = true →
      csvCell v = "\"" ++ dqStr (cellString v) ++ "\"")
    ∧ (hasSpecial (cellString v) = false → csvCell v = cellString v)
    ∧ csvCell .null = "" ∧ csvCell .undefined = "" := by
  refine ⟨fun h => ?_, fun h => ?_, rfl, rfl⟩
  · simp [csvCell, h]
  · have hq := no_quote_of_not_hasSpecial _ h
    simp [csvCell, h, dqStr, dqChars_of_no_quote _ hq, mk_data_eq]

/-- C5 witness: a comma-carrying cell is quoted, a plain cell is not. -/
theorem csvCell_quoting_witness :
    csvCell (.str "a,b") = "\"" ++ dqStr (cellString (.str "a,b")) ++ "\"" ∧
      csvCell (.str "plain") = cellString (.str "plain") :=
  ⟨(csvCell_quoting (.str "a,b")).1 (by decide),
   (csvCell_quoting (.str "plain")).2.1 (by decide)⟩

/-! ## C8 — the validation predicate -/

/-- C8: `validateRSVP(e)` is true iff `e` is a (non-null) object whose
`name` and `email` are both truthy — for string-valued fields, both
non-empty — and no other field affects the result. -/
theorem validateRSVP_spec :
    (∀ e : JEntry, validateRSVP e = true ↔
      ∃ r : Row, e = .obj r ∧ jsTruthy (jget r "name") = true ∧
        jsTruthy (jget r "email") = true)
    ∧ (∀ (r : Row) (s t : String), jget r "name" = .str s →
        jget r "email" = .str t →
        (validateRSVP (.obj r) = true ↔ s ≠ "" ∧ t ≠ ""))
    ∧ (∀ r r' : Row, jget r "name" = jget r' "name" →
        jget r "email" = jget r' "email" →
        validateRSVP (.obj r) = validateRSVP (.obj r')) := by
  refine ⟨fun e => ?_, fun r s t hs ht => ?_, fun r r' h1 h2 => ?_⟩
  · cases e <;> simp [validateRSVP]
  · simp [validateRSVP, hs, ht, jsTruthy]
  · simp [validateRSVP, h1, h2]

/-- C8 witness: a complete entry validates; dropping `email` fails it. -/
theorem validateRSVP_spec_witness :
    validateRSVP (.obj [("name", .str "Ana"), ("email", .str "a@x.com")]) = true ∧
      ¬ validateRSVP (.obj [("name", .str "Ana")]) = true :=
  ⟨(validateRSVP_spec.1 _).mpr ⟨_, rfl, by decide, by decide⟩,
   fun h => by
     have := (validateRSVP_spec.1 _).mp h
     simp [jget, List.lookup, jsTruthy] at this⟩

/-! ## C2 — unconfigured-mode fail-fast -/

/-- C2 counterexample: with the endpoint configured as `"ftp://x"` (present
but without the recognized scheme prefix) the list helper fails fast, but
the GET revision of `addRSVPToSheets` does **not** throw the not-configured
error — it builds and issues a network request. -/
theorem sheetsConfig_counterexample :
    fetchRSVPsRequest (some "ftp://x") = .error "SHEETS_URL_NOT_CONFIGURED"
    ∧ addRSVPGetRequest (some "ftp://x") "2025-01-01T00:00:00.000Z" [] =
        .ok { action := "add", name := "", email := "", attending := "",
              guests := "0", message := "",
              timestamp := "2025-01-01T00:00:00.000Z" } :=
  ⟨rfl, rfl⟩

/-- C2 (amended): `fetchRSVPsFromSheets` and the POST revision of
`addRSVPToSheets` fail fast with the not-configured error whenever the URL
is absent or lacks the `http` prefix; the GET revision checks only
truthiness, so it fails fast exactly when the URL is absent or empty, and
with any non-empty URL (scheme or not) it proceeds to issue the request. -/
theorem sheetsConfig_amended (cfg : Option String) :
    (isSheetsConfigured cfg = false →
      fetchRSVPsRequest cfg = .error "SHEETS_URL_NOT_CONFIGURED")
    ∧ (∀ entry : Row, isSheetsConfigured cfg = false →
        addRSVPPostRequest cfg entry = .error "SHEETS_URL_NOT_CONFIGURED")
    ∧ (∀ (now : String) (entry : Row), (cfg = none ∨ cfg = some "") →
        addRSVPGetRequest cfg now entry = .error "SHEETS_URL_NOT_CONFIGURED")
    ∧ (∀ (now : String) (entry : Row) (s : String), cfg = some s → s ≠ "" →
        ∃ p : AddParams, addRSVPGetRequest cfg now entry = .ok p) := by
  refine ⟨fun h => ?_, fun entry h => ?_, fun now entry h => ?_,
    fun now entry s hs hne => ?_⟩
  · simp [fetchRSVPsRequest, h]
  · simp [addRSVPPostRequest, h]
  · rcases h with h | h <;> subst h <;> simp [addRSVPGetRequest]
  · subst hs
    simp only [addRSVPGetRequest, hne, ne_eq, not_false_eq_true, if_pos]
    exact ⟨_, rfl⟩

/-- C2 witness: at `cfg = some "ftp://x"` the list helper fails fast while
the GET add helper returns a request. -/
theorem sheetsConfig_amended_witness :
    fetchRSVPsRequest (some "ftp://x") = .error "SHEETS_URL_NOT_CONFIGURED"
    ∧ ∃ p : AddParams,
        addRSVPGetRequest (some "ftp://x") "T" [] = .ok p :=
  ⟨(sheetsConfig_amended (some "ftp://x")).1 (by decide),
   (sheetsConfig_amended (some "ftp://x")).2.2.2 "T" [] "ftp://x" rfl (by decide)⟩

/-! ## C3 — timestamp injection on submission -/

/-- C3 counterexample: an entry that already supplies
`timestamp = "2020-01-01T00:00:00Z"` is sent by the GET revision with the
freshly generated clock value instead — the supplied timestamp is
discarded, not carried unchanged. -/
theorem addTimestamp_counterexample :
    addRSVPGetRequest (some "https://s") "2025-06-01T00:00:00.000Z"
      [("name", .str "Ana"), ("email", .str "a@x.com"),
       ("timestamp", .str "2020-01-01T00:00:00Z")] =
      .ok { action := "add", name := "Ana", email := "a@x.com",
            attending := "", guests := "0", message := "",
            timestamp := "2025-06-01T00:00:00.000Z" }
    ∧ ("2025-06-01T00:00:00.000Z" : String) ≠ "2020-01-01T00:00:00Z" :=
  ⟨rfl, by decide⟩

/-- C3 (amended): the GET revision of `addRSVPToSheets` always stamps the
request with the timestamp generated at submission time, regardless of any
timestamp the entry supplies; the POST revision forwards the entry
unchanged and injects nothing (the backend fills a missing timestamp). -/
theorem addTimestamp_amended (cfg : Option String) (now : String) (entry : Row) :
    (∀ p : AddParams, addRSVPGetRequest cfg now entry = .ok p →
      p.timestamp = now)
    ∧ (∀ e : String × Row, addRSVPPostRequest cfg entry = .ok e →
        e.2 = entry) := by
  constructor
  · intro p h
    unfold addRSVPGetRequest at h
    split at h
    · cases h
      rfl
    · cases h
  · intro e h
    unfold addRSVPPostRequest at h
    split at h
    · cases h
      rfl
    · cases h

/-- C3 witness: the concrete GET request of the counterexample input
carries the generated clock value in its `timestamp` field. -/
theorem addTimestamp_amended_witness :
    AddParams.timestamp
      { action := "add", name := "Ana", email := "a@x.com", attending := "",
        guests := "0", message := "", timestamp := "2025-06-01T00:00:00.000Z" }
      = "2025-06-01T00:00:00.000Z" :=
  (addTimestamp_amended (some "https://s") "2025-06-01T00:00:00.000Z"
      [("name", .str "Ana"), ("email", .str "a@x.com"),
       ("timestamp", .str "2020-01-01T00:00:00Z")]).1 _ rfl

/-! ## C6 — fallback-chain lookup in the list normalization -/

/-- C6 counterexample: the lookup is **not** case-insensitive — a row
keyed `NAME` (a casing outside the hard-coded chain `name`/`Name`/
`full_name`) normalizes to the empty name, not `"A"`. -/
theorem normalizeRow_caseSensitive_cex :
    jget (normalizeRow [("NAME", JPrim.str "A")]) "name" = .str "" ∧
      JPrim.str "" ≠ .str "A" := ⟨by decide, by decide⟩

/-- C6 (amended): each canonical field is resolved by taking the first
*truthy* value along a fixed, case-sensitive fallback chain of exact keys
(`name`/`Name`/`full_name`; `email`/`Email`; `attending`/`Attending`;
`guests`/`Guests`; `message`/`Message`;
`timestamp`/`Timestamp`/`time`/`Time`), defaulting to `""` (`0`, then
numeric coercion, for `guests`); in particular
`{Name:"A", Email:"b@x.com"}` normalizes exactly as the claim's instance
states. -/
theorem normalizeRow_chains (r : Row) :
    jget (normalizeRow r) "name" =
        chainLookup r ["name", "Name", "full_name"] (.str "")
    ∧ jget (normalizeRow r) "email" = chainLookup r ["email", "Email"] (.str "")
    ∧ jget (normalizeRow r) "attending" =
        chainLookup r ["attending", "Attending"] (.str "")
    ∧ jget (normalizeRow r) "guests" =
        jsNumber (chainLookup r ["guests", "Guests"] (.num 0))
    ∧ jget (normalizeRow r) "message" =
        chainLookup r ["message", "Message"] (.str "")
    ∧ jget (normalizeRow r) "timestamp" =
        chainLookup r ["timestamp", "Timestamp", "time", "Time"] (.str "")
    ∧ normalizeRow [("Name", .str "A"), ("Email", .str "b@x.com")] =
        [("name", .str "A"), ("email", .str "b@x.com"),
         ("attending", .str ""), ("guests", .num 0),
         ("message", .str ""), ("timestamp", .str "")] := by
  refine ⟨?_, ?_, ?_, ?_, ?_, ?_, by decide⟩
  · rw [jget_norm_name]; simp [chainLookup, firstTruthy, jsOr]
  · rw [jget_norm_email]; simp [chainLookup, firstTruthy, jsOr]
  · rw [jget_norm_attending]; simp [chainLookup, firstTruthy, jsOr]
  · rw [jget_norm_guests]; simp [chainLookup, firstTruthy, jsOr]
  · rw [jget_norm_message]; simp [chainLookup, firstTruthy, jsOr]
  · rw [jget_norm_time]; simp [chainLookup, firstTruthy, jsOr]

/-! ## C7 — idempotence on canonical rows -/

/-- `undefined || b` falls through to `b`. -/
theorem jsOr_undef (b : JPrim) : jsOr .undefined b = b := rfl

/-- A string-valued field survives a `x || ... || ""` chain whose other
links are absent. -/
theorem jsOr_str_self (s : String) : jsOr (.str s) (.str "") = .str s := by
  by_cases h : s = "" <;> simp [jsOr, jsTruthy, h]

/-- A (finite-)numeric `guests` survives `Number(x || ... || 0)`. -/
theorem jsOr_num_self (q : ℚ) : jsNumber (jsOr (.num q) (.num 0)) = .num q := by
  by_cases h : q = 0 <;> simp [jsOr, jsTruthy, jsNumber, h]

/-- C7: normalizing an already-canonical row — the six lowercase keys in
canonical order, string-valued fields, (finite) numeric `guests`, the
shape the spec's data model gives canonical entries — returns an equal
row. -/
theorem normalizeRow_idempotent (a b c m t : String) (q : ℚ) :
    normalizeRow [("name", .str a), ("email", .str b), ("attending", .str c),
      ("guests", .num q), ("message", .str m), ("timestamp", .str t)] =
    [("name", .str a), ("email", .str b), ("attending", .str c),
      ("guests", .num q), ("message", .str m), ("timestamp", .str t)] := by
  have e1 : normalizeRow [("name", .str a), ("email", .str b),
      ("attending", .str c), ("guests", .num q), ("message", .str m),
      ("timestamp", .str t)] =
      [("name", jsOr (.str a) (jsOr .undefined (jsOr .undefined (.str "")))),
       ("email", jsOr (.str b) (jsOr .undefined (.str ""))),
       ("attending", jsOr (.str c) (jsOr .undefined (.str ""))),
       ("guests", jsNumber (jsOr (.num q) (jsOr .undefined (.num 0)))),
       ("message", jsOr (.str m) (jsOr .undefined (.str ""))),
       ("timestamp", jsOr (.str t) (jsOr .undefined (jsOr .undefined
         (jsOr .undefined (.str "")))))] := rfl
  rw [e1]
  simp only [jsOr_undef, jsOr_str_self, jsOr_num_self]

/-! ## C9 — blank rows are dropped -/

/-- C9: every row retained by `refreshRSVPs` has a truthy (for strings:
non-empty) `name` or `email`; no retained row has both fields equal to the
empty string; and a normalized row with both fields empty is excluded from
the final list. -/
theorem refreshOutput_drops_blank (d : ListData) :
    (∀ x ∈ refreshOutput d,
        jsTruthy (jget x "name") = true ∨ jsTruthy (jget x "email") = true)
    ∧ (∀ x ∈ refreshOutput d,
        ¬(jget x "name" = .str "" ∧ jget x "email" = .str ""))
    ∧ (∀ r ∈ extractRows d, jget (normalizeRow r) "name" = .str "" →
        jget (normalizeRow r) "email" = .str "" →
        normalizeRow r ∉ refreshOutput d) := by
  have hmem : ∀ x ∈ refreshOutput d,
      jsTruthy (jget x "name") = true ∨ jsTruthy (jget x "email") = true := by
    intro x hx
    have h := (List.mem_filter.mp hx).2
    simpa using h
  refine ⟨hmem, fun x hx hboth => ?_, fun r _ h1 h2 hin => ?_⟩
  · rcases hmem x hx with h | h
    · rw [hboth.1] at h
      simp [jsTruthy] at h
    · rw [hboth.2] at h
      simp [jsTruthy] at h
  · rcases hmem _ hin with h | h
    · rw [h1] at h
      simp [jsTruthy] at h
    · rw [h2] at h
      simp [jsTruthy] at h

/-- C9 witness: a list with one blank and one named row retains only the
named one, whose `name` is truthy. -/
theorem refreshOutput_drops_blank_witness :
    jsTruthy (jget (normalizeRow [("name", JPrim.str "Bo")]) "name") = true ∨
      jsTruthy (jget (normalizeRow [("name", JPrim.str "Bo")]) "email") = true :=
  (refreshOutput_drops_blank
      (.jarr [[("name", JPrim.str ""), ("email", JPrim.str "")],
              [("name", JPrim.str "Bo")]])).1
    (normalizeRow [("name", JPrim.str "Bo")]) (by decide)

/-! ## C10 — shape invariant of the normalized list -/

/-- `Number(...)` always yields a number or NaN, never any other type. -/
theorem jsNumber_shape (v : JPrim) :
    jsNumber v = .nan ∨ ∃ q : ℚ, jsNumber v = .num q := by
  cases v with
  | str s => cases h : strToNum s <;> simp [jsNumber, h]
  | undefined => exact Or.inl rfl
  | nan => exact Or.inl rfl
  | null => exact Or.inr ⟨_, rfl⟩
  | bool b => exact Or.inr ⟨_, rfl⟩
  | num q => exact Or.inr ⟨_, rfl⟩

/-- `a || b` is truthy or literally its fallback. -/
theorem jsOr_truthy_or_eq (a b : JPrim) :
    jsTruthy (jsOr a b) = true ∨ jsOr a b = b := by
  by_cases h : jsTruthy a = true
  · left
    rw [jsOr_of_truthy _ h]
    exact h
  · right
    exact jsOr_of_falsy _ (by simpa using h)

/-- A fallback chain whose tail is truthy-or-`""` stays truthy-or-`""`. -/
theorem chain_truthy_or_empty (a b : JPrim)
    (hb : jsTruthy b = true ∨ b = .str "") :
    jsTruthy (jsOr a b) = true ∨ jsOr a b = .str "" := by
  rcases jsOr_truthy_or_eq a b with h | h
  · exact Or.inl h
  · rcases hb with hb | hb
    · left
      rw [h]
      exact hb
    · right
      rw [h]
      exact hb

/-- Looking a key up in an all-string row yields a string or `undefined`. -/
theorem jget_isStrU (r : Row) (hall : ∀ p ∈ r, isStr p.2 = true) (k : String) :
    isStr (jget r k) = true ∨ jget r k = .undefined := by
  induction r with
  | nil => exact Or.inr rfl
  | cons p rest ih =>
      rcases p with ⟨pk, pv⟩
      by_cases hk : (k == pk) = true
      · left
        have : jget ((pk, pv) :: rest) k = pv := by
          simp [jget, List.lookup, hk]
        rw [this]
        exact hall (pk, pv) (List.mem_cons_self _ _)
      · have : jget ((pk, pv) :: rest) k = jget rest k := by
          simp [jget, List.lookup, Bool.of_not_eq_true hk]
        rw [this]
        exact ih fun p hp => hall p (List.mem_cons_of_mem _ hp)

/-- A fallback chain of string-or-absent links ending in a string value is
string-valued. -/
theorem chain_isStr (a b : JPrim) (ha : isStr a = true ∨ a = .undefined)
    (hb : isStr b = true) : isStr (jsOr a b) = true := by
  by_cases h : jsTruthy a = true
  · rw [jsOr_of_truthy _ h]
    rcases ha with ha | ha
    · exact ha
    · rw [ha] at h
      simp [jsTruthy] at h
  · rw [jsOr_of_falsy _ (by simpa using h)]
    exact hb

/-- C10 counterexample: a remote row with a *numeric* `name` (JSON numbers
are legal row values) passes normalization and the filter unchanged, so the
final list contains a record whose `name` is a number, not a string. -/
theorem refreshOutput_numericName_cex :
    refreshOutput (.jarr [[("name", JPrim.num 123)]]) =
      [[("name", .num 123), ("email", .str ""), ("attending", .str ""),
        ("guests", .num 0), ("message", .str ""), ("timestamp", .str "")]]
    ∧ isStr (.num 123) = false := ⟨by decide, rfl⟩

/-- C10 (amended): for every response shape, every record of the
normalized list has exactly the six canonical keys in canonical order, its
`guests` is always a number or NaN, and each of the other five fields is
either a truthy row value taken verbatim (of whatever JSON type) or the
string `""`; when the source row's values are all strings, those five
fields are strings. -/
theorem refreshOutput_shape :
    (∀ d : ListData, ∀ x ∈ refreshOutput d,
      x.map Prod.fst =
          ["name", "email", "attending", "guests", "message", "timestamp"]
        ∧ (jget x "guests" = .nan ∨ ∃ q : ℚ, jget x "guests" = .num q)
        ∧ (∀ k ∈ (["name", "email", "attending", "message", "timestamp"] :
            List String),
            jsTruthy (jget x k) = true ∨ jget x k = .str ""))
    ∧ (∀ r : Row, (∀ p ∈ r, isStr p.2 = true) →
        ∀ k ∈ (["name", "email", "attending", "message", "timestamp"] :
            List String),
          isStr (jget (normalizeRow r) k) = true) := by
  constructor
  · intro d x hx
    obtain ⟨r, _, rfl⟩ := List.mem_map.mp (List.mem_filter.mp hx).1
    refine ⟨rfl, ?_, ?_⟩
    · rw [jget_norm_guests]
      exact jsNumber_shape _
    · intro k hk
      simp only [List.mem_cons, List.not_mem_nil, or_false] at hk
      rcases hk with rfl | rfl | rfl | rfl | rfl
      · rw [jget_norm_name]
        exact chain_truthy_or_empty _ _ (chain_truthy_or_empty _ _
          (chain_truthy_or_empty _ _ (Or.inr rfl)))
      · rw [jget_norm_email]
        exact chain_truthy_or_empty _ _ (chain_truthy_or_empty _ _ (Or.inr rfl))
      · rw [jget_norm_attending]
        exact chain_truthy_or_empty _ _ (chain_truthy_or_empty _ _ (Or.inr rfl))
      · rw [jget_norm_message]
        exact chain_truthy_or_empty _ _ (chain_truthy_or_empty _ _ (Or.inr rfl))
      · rw [jget_norm_time]
        exact chain_truthy_or_empty _ _ (chain_truthy_or_empty _ _
          (chain_truthy_or_empty _ _ (chain_truthy_or_empty _ _ (Or.inr rfl))))
  · intro r hall k hk
    simp only [List.mem_cons, List.not_mem_nil, or_false] at hk
    have hstr : ∀ k', isStr (jget r k') = true ∨ jget r k' = .undefined :=
      jget_isStrU r hall
    rcases hk with rfl | rfl | rfl | rfl | rfl
    · rw [jget_norm_name]
      exact chain_isStr _ _ (hstr _) (chain_isStr _ _ (hstr _)
        (chain_isStr _ _ (hstr _) rfl))
    · rw [jget_norm_email]
      exact chain_isStr _ _ (hstr _) (chain_isStr _ _ (hstr _) rfl)
    · rw [jget_norm_attending]
      exact chain_isStr _ _ (hstr _) (chain_isStr _ _ (hstr _) rfl)
    · rw [jget_norm_message]
      exact chain_isStr _ _ (hstr _) (chain_isStr _ _ (hstr _) rfl)
    · rw [jget_norm_time]
      exact chain_isStr _ _ (hstr _) (chain_isStr _ _ (hstr _)
        (chain_isStr _ _ (hstr _) (chain_isStr _ _ (hstr _) rfl)))

/-- C10 witness: the singleton response's normalized record carries
exactly the six canonical keys. -/
theorem refreshOutput_shape_witness :
    (normalizeRow [("name", JPrim.str "Bo")]).map Prod.fst =
      ["name", "email", "attending", "guests", "message", "timestamp"] :=
  (refreshOutput_shape.1 (.jarr [[("name", JPrim.str "Bo")]])
    (normalizeRow [("name", JPrim.str "Bo")]) (by decide)).1

/-! ## C4 — CSV round-trip: parser-side lemmas -/

/-- Unfolding `csvAux` on a head character in unquoted mode. -/
theorem csvAux_cons_false (c : Char) (r : List Char) (fld : List Char)
    (rec : List String) :
    csvAux (c :: r) false fld rec =
      if c = ',' then csvAux r false [] (rec ++ [String.mk fld])
      else if c = '\n' then (rec ++ [String.mk fld]) :: csvAux r false [] []
      else if c = '"' then
        (if fld = [] then csvAux r true [] rec
         else csvAux r false (fld ++ ['"']) rec)
      else csvAux r false (fld ++ [c]) rec := rfl

/-- In quoted mode, a doubled quote reads as a literal quote. -/
theorem csvAux_quote_quote (r2 : List Char) (fld : List Char)
    (rec : List String) :
    csvAux ('"' :: '"' :: r2) true fld rec = csvAux r2 true (fld ++ ['"']) rec :=
  rfl

/-- A closing quote at end of input leaves quoted mode. -/
theorem csvAux_quote_nil (fld : List Char) (rec : List String) :
    csvAux ['"'] true fld rec = csvAux [] false fld rec := rfl

/-- A closing quote followed by a non-quote leaves quoted mode. -/
theorem csvAux_quote_other (c2 : Char) (r2 fld : List Char) (rec : List String)
    (h : c2 ≠ '"') :
    csvAux ('"' :: c2 :: r2) true fld rec = csvAux (c2 :: r2) false fld rec := by
  conv_lhs => rw [csvAux.eq_def]
  simp [h]

/-- In quoted mode, an ordinary character streams into the field. -/
theorem csvAux_true_char (c : Char) (r fld : List Char) (rec : List String)
    (h : c ≠ '"') :
    csvAux (c :: r) true fld rec = csvAux r true (fld ++ [c]) rec := by
  conv_lhs => rw [csvAux.eq_def]
  simp [h]

/-- Special-free characters stream into the current unquoted field. -/
theorem csvAux_plain (cs : List Char)
    (h : ∀ c ∈ cs, ¬(c = ',' ∨ c = '"' ∨ c = '\n')) :
    ∀ (rest fld : List Char) (rec : List String),
      csvAux (cs ++ rest) false fld rec = csvAux rest false (fld ++ cs) rec := by
  induction cs with
  | nil => intro rest fld rec; simp
  | cons c cs' ih =>
      intro rest fld rec
      have hc := h c (List.mem_cons_self _ _)
      push_neg at hc
      rw [List.cons_append, csvAux_cons_false,
        if_neg hc.1, if_neg hc.2.2, if_neg hc.2.1,
        ih (fun x hx => h x (List.mem_cons_of_mem _ hx))]
      simp

/-- Quote-doubled characters stream into the current quoted field, and the
closing quote (not followed by another quote) exits quoted mode. -/
theorem csvAux_quoted (cs : List Char) :
    ∀ (rest fld : List Char) (rec : List String),
      rest.head? ≠ some '"' →
      csvAux (dqChars cs ++ '"' :: rest) true fld rec =
        csvAux rest false (fld ++ cs) rec := by
  induction cs with
  | nil =>
      intro rest fld rec hrest
      rw [dqChars, List.nil_append]
      cases rest with
      | nil => rw [csvAux_quote_nil]; simp
      | cons c2 r2 =>
          have hc2 : c2 ≠ '"' := by
            intro hq
            exact hrest (by rw [hq]; rfl)
          rw [csvAux_quote_other _ _ _ _ hc2]
          simp
  | cons c cs' ih =>
      intro rest fld rec hrest
      by_cases hc : c = '"'
      · subst hc
        have e : dqChars ('"' :: cs') = '"' :: '"' :: dqChars cs' := by
          simp [dqChars]
        rw [e, List.cons_append, List.cons_append, csvAux_quote_quote,
          ih rest (fld ++ ['"']) rec hrest]
        simp
      · have e : dqChars (c :: cs') = c :: dqChars cs' := by
          simp [dqChars, hc]
        rw [e, List.cons_append, csvAux_true_char _ _ _ _ hc,
          ih rest (fld ++ [c]) rec hrest]
        simp

/-- A special-free value is emitted verbatim by the cell escape. -/
theorem csvCell_plain (v : String) (h : hasSpecial v = false) :
    csvCell (.str v) = v := by
  have hq := no_quote_of_not_hasSpecial _ (by simpa [cellString] using h)
  simp [csvCell, cellString, jsStringOf, h, dqStr,
    dqChars_of_no_quote _ (by simpa [cellString] using hq), mk_data_eq]

/-- Feeding one escaped cell starting a fresh field recovers the value in
the field accumulator, leaving the following separator (or EOF) to
process. -/
theorem csvAux_escS (v : String) (rest : List Char) (rec : List String)
    (hrest : rest = [] ∨ rest.head? = some ',' ∨ rest.head? = some '\n') :
    csvAux ((csvCell (.str v)).data ++ rest) false [] rec =
      csvAux rest false v.data rec := by
  have hrq : rest.head? ≠ some '"' := by
    rcases hrest with h | h | h <;> simp [h]
  by_cases hs : hasSpecial v = true
  · have e1 : csvCell (.str v) = "\"" ++ dqStr v ++ "\"" := by
      have ej : jsStringOf (.str v) = v := rfl
      simp [csvCell, cellString, ej, hs]
    have e2 : ("\"" ++ dqStr v ++ "\"").data ++ rest =
        '"' :: (dqChars v.data ++ '"' :: rest) := by
      simp [String.data_append, dqStr]
    rw [e1, e2, csvAux_cons_false, if_neg (by decide), if_neg (by decide),
      if_pos rfl, if_pos rfl, csvAux_quoted v.data rest [] rec hrq]
    simp
  · have hs' : hasSpecial v = false := by simpa using hs
    have hplain : ∀ c ∈ v.data, ¬(c = ',' ∨ c = '"' ∨ c = '\n') := by
      intro c hc
      simp only [hasSpecial, List.any_eq_false] at hs'
      have := hs' c hc
      simp at this
      tauto
    rw [csvCell_plain v hs', csvAux_plain v.data hplain rest [] rec]
    simp

/-- Unfolding `csvAux` at end of input in unquoted mode. -/
theorem csvAux_nil_false (fld : List Char) (rec : List String) :
    csvAux [] false fld rec =
      if fld = [] ∧ rec = [] then [] else [rec ++ [String.mk fld]] := rfl

/-- Feeding one whole escaped line followed by a newline emits the line's
values as one record and restarts cleanly. -/
theorem csvAux_line (vs : List String) :
    vs ≠ [] → ∀ (rest : List Char) (rec : List String),
      csvAux ((lineOfVals vs).data ++ '\n' :: rest) false [] rec =
        (rec ++ vs) :: csvAux rest false [] [] := by
  induction vs with
  | nil => intro h; exact absurd rfl h
  | cons v vs' ih =>
      intro _ rest rec
      cases vs' with
      | nil =>
          have e : lineOfVals [v] = csvCell (.str v) := by
            simp [lineOfVals, joinWith]
          rw [e, csvAux_escS v ('\n' :: rest) rec (Or.inr (Or.inr rfl)),
            csvAux_cons_false, if_neg (by decide), if_pos rfl, mk_data_eq]
      | cons v2 vs'' =>
          have e : (lineOfVals (v :: v2 :: vs'')).data =
              (csvCell (.str v)).data ++
                ',' :: (lineOfVals (v2 :: vs'')).data := by
            simp [lineOfVals, joinWith, String.data_append]
          rw [e, List.append_assoc, List.cons_append,
            csvAux_escS v
              (',' :: ((lineOfVals (v2 :: vs'')).data ++ '\n' :: rest)) rec
              (Or.inr (Or.inl rfl)),
            csvAux_cons_false, if_pos rfl, mk_data_eq,
            ih (by simp) rest (rec ++ [v])]
          simp

/-- A string with no characters is the empty string. -/
theorem eq_empty_of_data_nil (v : String) (h : v.data = []) : v = "" := by
  cases v
  simp_all

/-- Feeding one whole escaped line at end of input emits the line's values
as the final record — unless that record would be a single empty field with
nothing accumulated, which a conformant reader treats as a trailing line
break rather than a record. -/
theorem csvAux_line_eof (vs : List String) :
    vs ≠ [] → ∀ rec : List String, ¬(vs = [""] ∧ rec = []) →
      csvAux (lineOfVals vs).data false [] rec = [rec ++ vs] := by
  induction vs with
  | nil => intro h; exact absurd rfl h
  | cons v vs' ih =>
      intro _ rec hcond
      cases vs' with
      | nil =>
          have e : lineOfVals [v] = csvCell (.str v) := by
            simp [lineOfVals, joinWith]
          have e2 := csvAux_escS v [] rec (Or.inl rfl)
          rw [List.append_nil] at e2
          rw [e, e2, csvAux_nil_false]
          have : ¬(v.data = [] ∧ rec = []) := by
            rintro ⟨h1, h2⟩
            exact hcond ⟨by rw [eq_empty_of_data_nil v h1], h2⟩
          rw [if_neg this, mk_data_eq]
      | cons v2 vs'' =>
          have e : (lineOfVals (v :: v2 :: vs'')).data =
              (csvCell (.str v)).data ++
                ',' :: (lineOfVals (v2 :: vs'')).data := by
            simp [lineOfVals, joinWith, String.data_append]
          rw [e, csvAux_escS v (',' :: (lineOfVals (v2 :: vs'')).data) rec
              (Or.inr (Or.inl rfl)),
            csvAux_cons_false, if_pos rfl, mk_data_eq,
            ih (by simp) (rec ++ [v]) (by simp)]
          simp

/-- Parsing a whole generated document (lines of nonempty value lists, the
last not a lone empty cell) recovers exactly the value lists. -/
theorem csvAux_doc (ls : List (List String)) :
    ls ≠ [] → (∀ l ∈ ls, l ≠ []) →
    (∀ l, ls.getLast? = some l → l ≠ [""]) →
    csvAux (docOfLines ls).data false [] [] = ls := by
  induction ls with
  | nil => intro h; exact absurd rfl h
  | cons l ls' ih =>
      intro _ hall hlast
      cases ls' with
      | nil =>
          have e : docOfLines [l] = lineOfVals l := by
            simp [docOfLines, joinWith]
          rw [e, csvAux_line_eof l (hall l (List.mem_cons_self _ _)) []
            (fun hc => hlast l rfl hc.1)]
          simp
      | cons l2 ls'' =>
          have e : (docOfLines (l :: l2 :: ls'')).data =
              (lineOfVals l).data ++ '\n' :: (docOfLines (l2 :: ls'')).data := by
            simp [docOfLines, joinWith, String.data_append]
          rw [e, csvAux_line l (hall l (List.mem_cons_self _ _)) _ [],
            ih (by simp) (fun x hx => hall x (List.mem_cons_of_mem _ hx))
              (fun x hx => hlast x (by rw [List.getLast?_cons_cons]; exact hx))]
          simp

/-- C4 counterexample: for the single row `{name: ""}` the generated CSV
is `"name\n"`; a conformant parser reads one record (the header) — the
final line break is a line terminator, not an empty record — so the
original row's value list `[""]` is *not* recovered (the parse is not the
header record followed by `[""]`). -/
theorem rowsToCSV_roundTrip_cex :
    parseCSV (rowsToCSV [strRow [("name", "")]]) = [["name"]] ∧
      [["name"]] ≠ [["name"], [""]] := ⟨by decide, by decide⟩

/-- C4 (amended): for every nonempty list of flat string-valued rows with
a consistent (and nonempty) key set whose keys contain no comma, double
quote or newline, and whose last row does not consist of a single empty
value, decoding `rowsToCSV(rows)` with a conformant CSV parser yields
exactly the header record followed by the original rows' string values in
the original row and column order. -/
theorem rowsToCSV_roundTrip (r0 : List (String × String))
    (rs : List (List (String × String)))
    (_hkeys : ∀ r ∈ r0 :: rs,
      (r.map Prod.fst).toFinset = (r0.map Prod.fst).toFinset)
    (hcols : ∀ r ∈ r0 :: rs, r ≠ [])
    (hheader : ∀ k ∈ r0.map Prod.fst, hasSpecial k = false)
    (hlast : ∀ r, (r0 :: rs).getLast? = some r → r.map Prod.snd ≠ [""]) :
    parseCSV (rowsToCSV ((r0 :: rs).map strRow)) =
      r0.map Prod.fst :: (r0 :: rs).map (fun r => r.map Prod.snd) := by
  have hdoc : rowsToCSV ((r0 :: rs).map strRow) =
      docOfLines (r0.map Prod.fst ::
        (r0 :: rs).map (fun r => r.map Prod.snd)) := by
    have e2 : (r0.map Prod.fst).map (fun v => csvCell (.str v)) =
        r0.map Prod.fst := by
      have h' : ∀ k ∈ r0.map Prod.fst,
          (fun v => csvCell (.str v)) k = (fun v => v) k :=
        fun k hk => csvCell_plain k (hheader k hk)
      rw [List.map_congr_left h', List.map_id']
    have hheadline : joinWith "," ((strRow r0).map Prod.fst) =
        lineOfVals (r0.map Prod.fst) := by
      have e1 : (strRow r0).map Prod.fst = r0.map Prod.fst := by
        simp [strRow, List.map_map]
      rw [e1, lineOfVals, e2]
    have hline : ∀ r : List (String × String),
        processRow (strRow r) = lineOfVals (r.map Prod.snd) := by
      intro r
      simp [processRow, strRow, lineOfVals, List.map_map]
      rfl
    show joinWith "\n"
        (joinWith "," ((((r0 :: rs).map strRow).head?.getD []).map Prod.fst) ::
          ((r0 :: rs).map strRow).map processRow) =
      joinWith "\n"
        ((r0.map Prod.fst :: (r0 :: rs).map (fun r => r.map Prod.snd)).map
          lineOfVals)
    apply congrArg
    conv_rhs => rw [List.map_cons]
    congr 1
    rw [List.map_map, List.map_map]
    exact List.map_congr_left fun r _ => hline r
  rw [hdoc, parseCSV]
  apply csvAux_doc
  · simp
  · intro l hl
    rcases List.mem_cons.mp hl with rfl | hl
    · have h0 : r0 ≠ [] := hcols r0 (List.mem_cons_self _ _)
      simp [List.map_eq_nil_iff, h0]
    · obtain ⟨r, hr, rfl⟩ := List.mem_map.mp hl
      have h0 : r ≠ [] := hcols r hr
      simp [List.map_eq_nil_iff, h0]
  · intro l hl
    rw [List.map_cons, List.getLast?_cons_cons, ← List.map_cons,
      List.getLast?_map] at hl
    obtain ⟨r, hr, rfl⟩ := Option.map_eq_some'.mp hl
    exact hlast r hr

/-- C4 witness: a two-row table (second row's keys in a different order,
one value containing comma, quote and newline) round-trips. -/
theorem rowsToCSV_roundTrip_witness :
    parseCSV (rowsToCSV (([("name", "Ana"), ("note", "a,\"b\nc")] ::
        [[("note", ""), ("name", "Bo")]]).map strRow)) =
      [("name", "Ana"), ("note", "a,\"b\nc")].map Prod.fst ::
        ([("name", "Ana"), ("note", "a,\"b\nc")] ::
          [[("note", ""), ("name", "Bo")]]).map (fun r => r.map Prod.snd) :=
  rowsToCSV_roundTrip [("name", "Ana"), ("note", "a,\"b\nc")]
    [[("note", ""), ("name", "Bo")]]
    (by decide) (by decide) (by decide)
    (by
      intro r hr
      simp at hr
      subst hr
      decide)
